import Mathlib

/-!
Shallow embedding of the null-rpc Cloudflare Worker core: the front-door
router (worker entry point), the per-chain dispatch logic of the ChainDO
durable object (src/objects/chain.ts), the cache decision logic
(src/cache.ts), the gateway request handler (src/handlers/rpc.ts), and the
plan table / rate-limit result types, together with theorems checking the
natural-language specification against these definitions.
-/

namespace NullRpc

/-- A JSON-RPC parameter as far as the routing and cache code inspects it:
the TypeScript code only ever asks whether a parameter is a string
(`typeof lastParam === 'string'`, `['latest', ...].includes(blockTag)`)
and, if it is, looks at its contents; every non-string value behaves
uniformly. -/
inductive RpcParam
| str (s : String)
| nonstr
deriving DecidableEq

/-- JavaScript `s.startsWith(pre)`, on the underlying character lists. -/
def strStartsWith (s pre : String) : Bool := pre.data.isPrefixOf s.data

/-- JavaScript `s.slice(n)` for a non-negative n (also the semantics of
`String.prototype.substring`), on the underlying character lists. -/
def strDrop (s : String) (n : Nat) : String := String.mk (s.data.drop n)

/-- Hex digit test, as accepted by JavaScript `Number.parseInt(s, 16)`. -/
def isHexDigit (c : Char) : Bool :=
  ('0' ≤ c && c ≤ '9') || ('a' ≤ c && c ≤ 'f') || ('A' ≤ c && c ≤ 'F')

/-- Value of a single hex digit character. -/
def hexDigitVal (c : Char) : Nat :=
  if '0' ≤ c && c ≤ '9' then c.toNat - '0'.toNat
  else if 'a' ≤ c && c ≤ 'f' then c.toNat - 'a'.toNat + 10
  else c.toNat - 'A'.toNat + 10

/-- JavaScript `Number.parseInt(s, 16)` for the strings this code feeds it
(the code has already checked `lastParam.startsWith('0x')`): strip an
optional 0x/0X, read the longest leading run of hex digits; no digits at
all gives NaN, modelled as `none`. -/
def parseIntHex (s : String) : Option Nat :=
  let rest := if strStartsWith s "0x" || strStartsWith s "0X" then strDrop s 2 else s
  let digits := rest.data.takeWhile isHexDigit
  if digits.isEmpty then none
  else some (digits.foldl (fun a c => 16 * a + hexDigitVal c) 0)

/-- The fixed set of block-parameterized methods from
ChainDO.requiresArchiveNode (src/objects/chain.ts). -/
def blockMethods : List String :=
  ["eth_getBalance", "eth_getCode", "eth_getTransactionCount", "eth_getStorageAt", "eth_call"]

/-- ChainDO.requiresArchiveNode (src/objects/chain.ts): inspects the last
parameter; "earliest" or a parsed hex block number strictly between 0 and
15000000 requires an archive node. The empty-params case gives
`params[params.length - 1] === undefined`, a non-string. -/
def requiresArchiveNode (method : String) (params : List RpcParam) : Bool :=
  if method ∉ blockMethods then false
  else
    match params.getLast? with
    | some (RpcParam.str lastParam) =>
      if lastParam == "earliest" then true
      else if strStartsWith lastParam "0x" then
        match parseIntHex lastParam with
        | some blockNum => decide (0 < blockNum ∧ blockNum < 15000000)
        | none => false
      else false
    | _ => false

/-- Routing category of a request (ChainDO.determineRoutingType). -/
inductive RoutingType
| mev
| archive
| standard
deriving DecidableEq

/-- ChainDO.determineRoutingType (src/objects/chain.ts). -/
def determineRoutingType (method : String) (params : List RpcParam) : RoutingType :=
  if method == "eth_sendRawTransaction" then RoutingType.mev
  else if strStartsWith method "trace_" || strStartsWith method "debug_" || method == "eth_getLogs" then
    RoutingType.archive
  else if requiresArchiveNode method params then RoutingType.archive
  else RoutingType.standard

/-- The slice of a fetch `Response` that the dispatch and gateway logic
reads: HTTP status, headers, body text. -/
structure Resp where
  status : Nat
  headers : List (String × String)
  body : String
deriving DecidableEq

/-- The fetch API's `Response.ok`: status in the 2xx success range. -/
def Resp.ok (r : Resp) : Bool := 200 ≤ r.status && r.status < 300

/-- ChainData as cached by the ChainDO (src/objects/chain.ts). -/
structure ChainData where
  id : Nat
  slug : String
  chainId : Nat
  nodes : List String
  archive_nodes : List String
  mev_nodes : List String
deriving DecidableEq

/-- Fixed header set used on dispatch error responses. -/
def jsonHeaders : List (String × String) := [("Content-Type", "application/json")]

/-- The 503 body of handleStandardRequest when the pool is empty:
JSON.stringify of an error naming the chain slug. -/
def noNodesStdResp (chainSlug : String) : Resp :=
  ⟨503, jsonHeaders, "\x7b\"error\":\"No nodes available for " ++ chainSlug ++ "\"\x7d"⟩

/-- The 502 body of handleStandardRequest when every attempt failed. -/
def allFailedStdResp : Resp :=
  ⟨502, jsonHeaders, "\x7b\"error\":\"All upstream nodes failed\"\x7d"⟩

/-- The 503 body of handleMevRequest when the standard pool is empty. -/
def noNodesMevResp : Resp :=
  ⟨503, jsonHeaders, "\x7b\"error\":\"No nodes available\"\x7d"⟩

/-- The 502 body of handleMevRequest when every attempt failed. -/
def allFailedMevResp : Resp :=
  ⟨502, jsonHeaders, "\x7b\"error\":\"All nodes failed for transaction\"\x7d"⟩

/-- The attempt loop shared by the three dispatch handlers
(`for (const nodeUrl of shuffled.slice(0, k)) { const response = await
this.proxyRequest(...); if (response.ok) return response }`). `proxy` is
the per-run outcome of `proxyRequest` for each node URL — proxyRequest
catches transport errors and turns them into a 502 response, so it is a
total function into `Resp`. Returns the list of node URLs attempted, in
order, together with the first success if one occurred. -/
def tryNodes (proxy : String → Resp) : List String → List String × Option Resp
| [] => ([], none)
| n :: rest =>
  if (proxy n).ok then ([n], some (proxy n))
  else ((n :: (tryNodes proxy rest).1), (tryNodes proxy rest).2)

/-- ChainDO.handleStandardRequest (src/objects/chain.ts). `shuffle` stands
for `[...pool].sort(() => 0.5 - Math.random())`, the (biased) random
shuffle applied to the pool before truncation; it is a parameter because
its output is random. The first component instruments the embedding with
the list of node URLs actually attempted. -/
def handleStandardRequest (proxy : String → Resp) (shuffle : List String → List String)
    (chainSlug : String) (cd : ChainData) : List String × Resp :=
  if cd.nodes.isEmpty then ([], noNodesStdResp chainSlug)
  else
    match tryNodes proxy ((shuffle cd.nodes).take 3) with
    | (v, some r) => (v, r)
    | (v, none) => (v, allFailedStdResp)

/-- ChainDO.handleArchiveRequest (src/objects/chain.ts): an empty archive
pool falls back immediately to the standard algorithm; after three failed
archive attempts it also falls back to the standard algorithm. -/
def handleArchiveRequest (proxy : String → Resp) (shuffle : List String → List String)
    (chainSlug : String) (cd : ChainData) : List String × Resp :=
  if cd.archive_nodes.isEmpty then handleStandardRequest proxy shuffle chainSlug cd
  else
    match tryNodes proxy ((shuffle cd.archive_nodes).take 3) with
    | (v, some r) => (v, r)
    | (v, none) =>
      let rest := handleStandardRequest proxy shuffle chainSlug cd
      (v ++ rest.1, rest.2)

/-- ChainDO.handleMevRequest (src/objects/chain.ts): up to 2 MEV nodes,
then fall back to the standard pool with a 3-attempt budget; an empty
standard pool at that point yields the distinct 503 response. -/
def handleMevRequest (proxy : String → Resp) (shuffle : List String → List String)
    (cd : ChainData) : List String × Resp :=
  let first :=
    if cd.mev_nodes.isEmpty then ([], none)
    else tryNodes proxy ((shuffle cd.mev_nodes).take 2)
  match first with
  | (v1, some r) => (v1, r)
  | (v1, none) =>
    if cd.nodes.isEmpty then (v1, noNodesMevResp)
    else
      match tryNodes proxy ((shuffle cd.nodes).take 3) with
      | (v2, some r) => (v1 ++ v2, r)
      | (v2, none) => (v1 ++ v2, allFailedMevResp)

/-- Method lists of the getCacheTtl switch (src/cache.ts), in the order the
cases appear. -/
def VOLATILE_METHODS : List String :=
  ["eth_blockNumber", "eth_gasPrice", "eth_getBalance", "eth_call", "eth_estimateGas"]

/-- Long-TTL case labels of the getCacheTtl switch (src/cache.ts). -/
def IMMUTABLE_METHODS : List String :=
  ["eth_chainId", "net_version", "web3_clientVersion", "eth_getBlockByHash", "eth_getTransactionReceipt"]

/-- Block tags treated as changing by getCacheTtl (src/cache.ts). -/
def BLOCK_TAGS : List String := ["latest", "earliest", "pending", "safe", "finalized"]

/-- getCacheTtl (src/cache.ts): the per-method TTL switch. For
eth_getBlockByNumber the code reads `params[0]`; a missing or non-string
first parameter fails the `includes` check and gets the long TTL. -/
def getCacheTtl (method : String) (params : List RpcParam) : Nat :=
  if method ∈ VOLATILE_METHODS then 1
  else if method ∈ IMMUTABLE_METHODS then 900
  else if method == "eth_getBlockByNumber" then
    match params.head? with
    | some (RpcParam.str blockTag) => if blockTag ∈ BLOCK_TAGS then 1 else 900
    | _ => 900
  else 0

/-- Cache decision outcome recorded by the gateway
(AnalyticsData.cacheStatus in src/handlers/rpc.ts). -/
inductive CacheStatus
| HIT
| MISS
| BYPASS
| NONE
deriving DecidableEq

/-- The shapes a parsed request body can take for the gateway handler
(src/handlers/rpc.ts): a valid single JSON-RPC 2.0 call, a valid batch, or
anything else (unparseable JSON, wrong jsonrpc version, non-string method,
empty array, ...), which sets neither ttl nor cacheStatus. -/
inductive RpcBody
| single (method : String) (params : List RpcParam)
| batch
| malformed

/-- Headers.get: first header with the given name, if any. -/
def headerGet (hs : List (String × String)) (k : String) : Option String :=
  (hs.find? (fun p => p.1 == k)).map (fun p => p.2)

/-- Headers.set: replace any header with the given name. -/
def headerSet (hs : List (String × String)) (k v : String) : List (String × String) :=
  hs.filter (fun p => ¬(p.1 = k)) ++ [(k, v)]

/-- handleRequest (src/handlers/rpc.ts), reduced to its cache-status and
response-header dataflow. `cacheLookup` is the result the platform cache
returns for the computed key; `stubResp` is the response produced by the
ChainDO stub fetch. Returns the final value of the `cacheStatus` variable
together with the response returned to the client. On a cache hit the
code builds a copy of the cached response and sets the X-NullRPC-Cache
header; on every other path it returns the stub response unchanged. -/
def handleRequest (chain : String) (isPost : Bool) (hasCtx : Bool) (body : RpcBody)
    (cacheLookup : Option Resp) (stubResp : Resp) : CacheStatus × Resp :=
  match isPost, body with
  | true, RpcBody.single m ps =>
    let ttl := getCacheTtl m ps
    if 0 < ttl ∧ hasCtx = true then
      match cacheLookup with
      | some cr => (CacheStatus.HIT, { cr with headers := headerSet cr.headers "X-NullRPC-Cache" "HIT" })
      | none => (CacheStatus.MISS, stubResp)
    else (CacheStatus.BYPASS, stubResp)
  | true, RpcBody.batch => (CacheStatus.NONE, stubResp)
  | true, RpcBody.malformed => (CacheStatus.NONE, stubResp)
  | false, _ => (CacheStatus.NONE, stubResp)

/-- HTTP method, as far as the worker router distinguishes it. -/
inductive HttpMethod
| GET
| POST
deriving DecidableEq

/-- Where the worker entry point's fetch handler routes a request. The
constructors name the handler invoked: `assets` the static asset binding,
`root` handleRoot, `chainsInfo` handleChains, `analytics` handleAnalytics,
`chainPage` handleChainPage (which itself 404s on an unknown chain),
`publicRpc` checkRateLimitAndHandlePublic (IP rate limit, then
handleRequest), `authRpc` a hypothetical authenticated handler, and
`notFound` a literal 404 response. -/
inductive RouteOutcome
| assets
| root
| chainsInfo
| analytics
| chainPage (chain : String)
| publicRpc (chain : String)
| authRpc (chain : String) (token : String)
| notFound
deriving DecidableEq

/-- JavaScript `path.split('/').pop() || ''`: the suffix after the last
slash (the whole string when there is none). -/
def lastSegment (cs : List Char) : List Char :=
  (cs.reverse.takeWhile (fun c => ¬(c = '/'))).reverse

/-- JavaScript `path.indexOf('/', start)`, with -1 modelled as `none`. -/
def idxOfFrom (cs : List Char) (c : Char) (start : Nat) : Option Nat :=
  ((cs.drop start).findIdx? (fun d => d == c)).map (fun i => i + start)

/-- The worker entry point's fetch routing (the default export's fetch in
the worker index file): static assets / root, the /chains and /analytics
endpoints, then the manual zero-allocation segment parsing. `hasAssets`
is whether the ASSETS binding is present. The routing decision depends
only on the path and the HTTP method. -/
def routeFetch (hasAssets : Bool) (method : HttpMethod) (path : String) : RouteOutcome :=
  let cs := path.data
  let hasExtension := (lastSegment cs).contains '.'
  if (hasExtension || path == "/" || path == "") && hasAssets then RouteOutcome.assets
  else if path == "/" || path == "" then RouteOutcome.root
  else if path == "/chains" then RouteOutcome.chainsInfo
  else if "/analytics".data.isPrefixOf cs then RouteOutcome.analytics
  else
    let start := if cs.head? = some '/' then 1 else 0
    match idxOfFrom cs '/' start with
    | none =>
      let chain := String.mk (cs.drop start)
      if chain == "" then RouteOutcome.root
      else
        match method with
        | HttpMethod.GET => RouteOutcome.chainPage chain
        | HttpMethod.POST => RouteOutcome.publicRpc chain
    | some nextSlash =>
      let chain := String.mk ((cs.take nextSlash).drop start)
      if chain == "" then RouteOutcome.notFound
      else
        let tokenStart := nextSlash + 1
        match idxOfFrom cs '/' tokenStart with
        | none =>
          let token := String.mk (cs.drop tokenStart)
          if token == "" then RouteOutcome.publicRpc chain
          else RouteOutcome.notFound
        | some _ => RouteOutcome.notFound

/-- The local ChainDO cache state touched by ensureChainData
(src/objects/chain.ts): the cached chain data and the last sync time. -/
structure ChainDOState where
  chainData : Option ChainData
  lastSync : Nat
deriving DecidableEq

/-- What the D1 query inside ensureChainData can produce: a row, no row,
or a thrown error (the catch branch). -/
inductive FetchResult
| found (cd : ChainData)
| absent
| failure

/-- SYNC_INTERVAL from src/objects/chain.ts (one minute, in ms). -/
def SYNC_INTERVAL : Nat := 60000

/-- ChainDO.ensureChainData (src/objects/chain.ts): skip when fresh;
otherwise on a found row swap in the new data and stamp lastSync, on an
absent row drop to null, and on a query error keep the old data (the
catch only re-assigns null when chainData was already null) without
raising. The source catches the error, so the embedding is total. -/
def ensureChainData (now : Nat) (queryResult : FetchResult) (st : ChainDOState) : ChainDOState :=
  if st.chainData.isSome ∧ now - st.lastSync < SYNC_INTERVAL then st
  else
    match queryResult with
    | FetchResult.found cd => { chainData := some cd, lastSync := now }
    | FetchResult.absent => { st with chainData := none }
    | FetchResult.failure =>
      if st.chainData.isSome then st else { st with chainData := none }

/-- One byte rendered as two lowercase hex characters:
`b.toString(16).padStart(2, '0')` in calculateCacheKey (src/cache.ts). -/
def hexDigitChar (n : Nat) : Char :=
  if n < 10 then Char.ofNat (48 + n) else Char.ofNat (87 + n)

/-- Two-hex-digit rendering of one digest byte. -/
def byteToHex (b : Fin 256) : String :=
  String.mk [hexDigitChar (b.val / 16), hexDigitChar (b.val % 16)]

/-- JavaScript `array.join('')` over the rendered bytes. -/
def joinAll : List String → String
| [] => ""
| s :: rest => s ++ joinAll rest

/-- The hex rendering of a digest, `hashArray.map(...).join('')`. -/
def hashHexOfDigest (digest : List (Fin 256)) : String :=
  joinAll (digest.map byteToHex)

/-- calculateCacheKey (src/cache.ts). `sha256` stands for
`crypto.subtle.digest('SHA-256', ...)` applied to the UTF-8 encoding of
the serialized body: an external primitive whose output is a 32-byte
digest; `bodyString` is `JSON.stringify(body)`. The key is the fixed
internal URL prefix, the chain slug, a slash, and the 64-hex-character
digest. -/
def calculateCacheKey (sha256 : String → List (Fin 256)) (chain : String)
    (bodyString : String) : String :=
  "https://cache.null-rpc.internal/" ++ chain ++ "/" ++ hashHexOfDigest (sha256 bodyString)

/-- Rejection reasons of the rate limiter (RateLimitResult type file). -/
inductive RateLimitReason
| monthly_limit
| rate_limit
| user_not_found
deriving DecidableEq

/-- RateLimitResult (rate-limit types source file). -/
structure RateLimitResult where
  allowed : Bool
  reason : Option RateLimitReason
  remaining : Int
deriving DecidableEq

/-- PlanConfig (plans source file); enterprise uses
Number.POSITIVE_INFINITY, modelled as the top element. -/
structure PlanConfig where
  requestsPerMonth : WithTop Nat
  requestsPerSecond : WithTop Nat
deriving DecidableEq

/-- PlanType (plans source file). -/
inductive PlanType
| hobbyist
| scaling
| business
| enterprise
deriving DecidableEq

/-- PLANS (plans source file). -/
def PLANS : PlanType → PlanConfig
| PlanType.business => ⟨((250000000 : Nat) : WithTop Nat), ((500 : Nat) : WithTop Nat)⟩
| PlanType.enterprise => ⟨⊤, ⊤⟩
| PlanType.hobbyist => ⟨((100000 : Nat) : WithTop Nat), ((10 : Nat) : WithTop Nat)⟩
| PlanType.scaling => ⟨((50000000 : Nat) : WithTop Nat), ((100 : Nat) : WithTop Nat)⟩

/-- Modelled from the spec: per-identity token-bucket + monthly-quota
state (spec section 3/4.6). The implementing UserSession durable object
is not among the provided source files — only the RateLimitResult type
and the PLANS table are — so the state machine is taken from the spec's
words. Finite plans only; the unlimited enterprise plan (always allowed)
is not needed by any claim. -/
structure RateLimitState where
  tokens : ℚ
  capacity : ℚ
  refillRatePerSec : ℚ
  monthlyUsed : Nat
  monthlyLimit : Nat
deriving DecidableEq

/-- Modelled from the spec: the burst multiplier, configured at 1.5. -/
def BURST_MULTIPLIER : ℚ := 3 / 2

/-- Modelled from the spec: initial full-bucket state for a finite plan;
capacity is the plan's requests-per-second limit times the burst
multiplier. -/
def initialRateLimitState (rps rpm : Nat) : RateLimitState :=
  { tokens := (rps : ℚ) * BURST_MULTIPLIER
    capacity := (rps : ℚ) * BURST_MULTIPLIER
    refillRatePerSec := (rps : ℚ)
    monthlyUsed := 0
    monthlyLimit := rpm }

/-- Modelled from the spec: RateLimiter.check for a known identity, steps
2-5 of spec section 4.6 — continuous refill capped at capacity, monthly
check, bucket check, then consume one token and count the request. -/
def rateLimitCheck (elapsedSeconds : ℚ) (st : RateLimitState) : RateLimitResult × RateLimitState :=
  let t := min st.capacity (st.tokens + elapsedSeconds * st.refillRatePerSec)
  if st.monthlyLimit ≤ st.monthlyUsed then
    (⟨false, some RateLimitReason.monthly_limit, Rat.floor t⟩, { st with tokens := t })
  else if t < 1 then
    (⟨false, some RateLimitReason.rate_limit, Rat.floor t⟩, { st with tokens := t })
  else
    (⟨true, none, Rat.floor (t - 1)⟩,
     { st with tokens := t - 1, monthlyUsed := st.monthlyUsed + 1 })

/-- Modelled from the spec: n requests from one identity arriving at a
single instant (zero elapsed time between evaluations), counting how many
are allowed and how many are rejected with reason rate_limit. -/
def runBurst : Nat → RateLimitState → Nat × Nat
| 0, _ => (0, 0)
| n + 1, st =>
  let step := rateLimitCheck 0 st
  let rest := runBurst n step.2
  ((if step.1.allowed then rest.1 + 1 else rest.1),
   (if step.1.reason = some RateLimitReason.rate_limit then rest.2 + 1 else rest.2))

/-- The C3 claim's archive condition, written from the spec's words for
comparison with the code's requiresArchiveNode: the last parameter is the
string "earliest", or a hex-encoded block number (0x followed by one or
more hex digits) whose decimal value is below the recency threshold
15000000. -/
def claimArchiveCond (params : List RpcParam) : Bool :=
  match params.getLast? with
  | some (RpcParam.str s) =>
    s == "earliest" ||
      (strStartsWith s "0x" && !(strDrop s 2).data.isEmpty &&
        (strDrop s 2).data.all isHexDigit &&
        decide ((strDrop s 2).data.foldl (fun a c => 16 * a + hexDigitVal c) 0 < 15000000))
  | _ => false

/-- The amended C3 archive condition, matching the code: the last
parameter is "earliest", or a string starting with 0x whose parseIntHex
value (JavaScript parseInt semantics: longest leading hex-digit run) is
strictly positive and below 15000000. -/
def amendedArchiveCond (params : List RpcParam) : Prop :=
  match params.getLast? with
  | some (RpcParam.str s) =>
    s = "earliest" ∨ (strStartsWith s "0x" = true ∧
      ∃ n, parseIntHex s = some n ∧ 0 < n ∧ n < 15000000)
  | _ => False

/-! Helper lemmas about the shared attempt loop. -/

theorem tryNodes_length (p : String → Resp) (l : List String) :
    (tryNodes p l).1.length ≤ l.length := by
  induction l with
  | nil => simp [tryNodes]
  | cons m rest ih =>
    by_cases hm : (p m).ok = true
    · simp [tryNodes, hm]
    · have hm' : (p m).ok = false := eq_false_of_ne_true hm
      simp only [tryNodes, hm', Bool.false_eq_true, if_false, List.length_cons]
      omega

theorem tryNodes_none (p : String → Resp) (l : List String)
    (h : (tryNodes p l).2 = none) :
    (tryNodes p l).1 = l ∧ ∀ n ∈ l, (p n).ok = false := by
  induction l with
  | nil => simp [tryNodes]
  | cons m rest ih =>
    by_cases hm : (p m).ok = true
    · simp [tryNodes, hm] at h
    · have hm' : (p m).ok = false := eq_false_of_ne_true hm
      simp only [tryNodes, hm', Bool.false_eq_true, if_false] at h ⊢
      obtain ⟨h1, h2⟩ := ih h
      refine ⟨by rw [h1], ?_⟩
      intro n hn
      rcases List.mem_cons.mp hn with rfl | hn
      · exact hm'
      · exact h2 n hn

theorem tryNodes_some (p : String → Resp) (l : List String) (r : Resp)
    (h : (tryNodes p l).2 = some r) :
    ∃ pre last, (tryNodes p l).1 = pre ++ [last] ∧ p last = r ∧ r.ok = true ∧
      ∀ n ∈ pre, (p n).ok = false := by
  induction l with
  | nil => simp [tryNodes] at h
  | cons m rest ih =>
    by_cases hm : (p m).ok = true
    · simp only [tryNodes, hm, if_true] at h ⊢
      have hr : p m = r := by injection h
      exact ⟨[], m, rfl, hr, hr ▸ hm, by simp⟩
    · have hm' : (p m).ok = false := eq_false_of_ne_true hm
      simp only [tryNodes, hm', Bool.false_eq_true, if_false] at h ⊢
      obtain ⟨pre, last, h1, h2, h3, h4⟩ := ih h
      refine ⟨m :: pre, last, by rw [h1]; rfl, h2, h3, ?_⟩
      intro n hn
      rcases List.mem_cons.mp hn with rfl | hn
      · exact hm'
      · exact h4 n hn

theorem tryNodes_dropLast_fail (p : String → Resp) (l : List String) :
    ∀ n ∈ (tryNodes p l).1.dropLast, (p n).ok = false := by
  cases h : (tryNodes p l).2 with
  | none =>
    obtain ⟨h1, h2⟩ := tryNodes_none p l h
    intro n hn
    exact h2 n (List.dropLast_subset _ (h1 ▸ hn))
  | some r =>
    obtain ⟨pre, last, h1, _, _, h4⟩ := tryNodes_some p l r h
    intro n hn
    rw [h1, List.dropLast_concat] at hn
    exact h4 n hn

theorem tryNodes_ok_last (p : String → Resp) (l : List String) (r : Resp)
    (h : (tryNodes p l).2 = some r) :
    ∃ n, (tryNodes p l).1.getLast? = some n ∧ p n = r := by
  obtain ⟨pre, last, h1, h2, _, _⟩ := tryNodes_some p l r h
  exact ⟨last, by rw [h1, List.getLast?_concat], h2⟩

/-! Helper lemmas about the three dispatch handlers: attempt counts,
failure of every non-final attempt, and the returned success being the
response of the final attempt. -/

theorem handleStandardRequest_spec (proxy : String → Resp) (shuffle : List String → List String)
    (chainSlug : String) (cd : ChainData) :
    (handleStandardRequest proxy shuffle chainSlug cd).1.length ≤ 3 ∧
    (∀ n ∈ (handleStandardRequest proxy shuffle chainSlug cd).1.dropLast, (proxy n).ok = false) ∧
    ((handleStandardRequest proxy shuffle chainSlug cd).2.ok = true →
      ∃ n, (handleStandardRequest proxy shuffle chainSlug cd).1.getLast? = some n ∧
        proxy n = (handleStandardRequest proxy shuffle chainSlug cd).2) := by
  by_cases he : cd.nodes.isEmpty
  · simp [handleStandardRequest, he, noNodesStdResp, Resp.ok]
  · cases h : (tryNodes proxy ((shuffle cd.nodes).take 3)).2 with
    | none =>
      obtain ⟨h1, _⟩ := tryNodes_none proxy _ h
      have hd : handleStandardRequest proxy shuffle chainSlug cd =
          ((tryNodes proxy ((shuffle cd.nodes).take 3)).1, allFailedStdResp) := by
        simp only [handleStandardRequest, he, if_false]
        rcases he2 : tryNodes proxy ((shuffle cd.nodes).take 3) with ⟨v, res⟩
        rw [he2] at h; cases h; rfl
      rw [hd]
      refine ⟨?_, fun n hn => tryNodes_dropLast_fail proxy _ n hn, ?_⟩
      · exact le_trans (tryNodes_length proxy _) (List.length_take_le 3 _)
      · intro hok
        simp [allFailedStdResp, Resp.ok] at hok
    | some r =>
      have hd : handleStandardRequest proxy shuffle chainSlug cd =
          ((tryNodes proxy ((shuffle cd.nodes).take 3)).1, r) := by
        simp only [handleStandardRequest, he, if_false]
        rcases he2 : tryNodes proxy ((shuffle cd.nodes).take 3) with ⟨v, res⟩
        rw [he2] at h; cases h; rfl
      rw [hd]
      refine ⟨?_, fun n hn => tryNodes_dropLast_fail proxy _ n hn, ?_⟩
      · exact le_trans (tryNodes_length proxy _) (List.length_take_le 3 _)
      · intro _
        exact tryNodes_ok_last proxy _ r h

theorem tryNodes_all_fail_none (p : String → Resp) (l : List String)
    (h : ∀ n ∈ l, (p n).ok = false) : (tryNodes p l).2 = none := by
  induction l with
  | nil => rfl
  | cons m rest ih =>
    have hm : (p m).ok = false := h m (List.mem_cons_self m rest)
    simp only [tryNodes, hm, Bool.false_eq_true, if_false]
    exact ih (fun n hn => h n (List.mem_cons_of_mem m hn))

theorem append_attempts_spec (proxy : String → Resp) (v1 v2 : List String) (r : Resp)
    (h1 : ∀ n ∈ v1, (proxy n).ok = false)
    (h2 : ∀ n ∈ v2.dropLast, (proxy n).ok = false)
    (h3 : r.ok = true → ∃ n, v2.getLast? = some n ∧ proxy n = r) :
    (∀ n ∈ (v1 ++ v2).dropLast, (proxy n).ok = false) ∧
    (r.ok = true → ∃ n, (v1 ++ v2).getLast? = some n ∧ proxy n = r) := by
  constructor
  · intro n hn
    rw [List.dropLast_append] at hn
    by_cases hv2 : v2.isEmpty = true
    · rw [if_pos hv2] at hn
      exact h1 n (List.dropLast_subset _ hn)
    · rw [if_neg hv2] at hn
      rcases List.mem_append.mp hn with hn | hn
      · exact h1 n hn
      · exact h2 n hn
  · intro hok
    obtain ⟨n, hn1, hn2⟩ := h3 hok
    refine ⟨n, ?_, hn2⟩
    rw [List.getLast?_append, hn1, Option.or_some]

theorem handleArchiveRequest_spec (proxy : String → Resp) (shuffle : List String → List String)
    (chainSlug : String) (cd : ChainData) :
    (handleArchiveRequest proxy shuffle chainSlug cd).1.length ≤ 6 ∧
    (∀ n ∈ (handleArchiveRequest proxy shuffle chainSlug cd).1.dropLast, (proxy n).ok = false) ∧
    ((handleArchiveRequest proxy shuffle chainSlug cd).2.ok = true →
      ∃ n, (handleArchiveRequest proxy shuffle chainSlug cd).1.getLast? = some n ∧
        proxy n = (handleArchiveRequest proxy shuffle chainSlug cd).2) := by
  obtain ⟨s1, s2, s3⟩ := handleStandardRequest_spec proxy shuffle chainSlug cd
  by_cases he : cd.archive_nodes.isEmpty = true
  · have hd : handleArchiveRequest proxy shuffle chainSlug cd =
        handleStandardRequest proxy shuffle chainSlug cd := by
      simp [handleArchiveRequest, he]
    rw [hd]
    exact ⟨le_trans s1 (by norm_num), s2, s3⟩
  · cases h : (tryNodes proxy ((shuffle cd.archive_nodes).take 3)).2 with
    | some r =>
      have hd : handleArchiveRequest proxy shuffle chainSlug cd =
          ((tryNodes proxy ((shuffle cd.archive_nodes).take 3)).1, r) := by
        simp only [handleArchiveRequest, he, if_false]
        rcases he2 : tryNodes proxy ((shuffle cd.archive_nodes).take 3) with ⟨v, res⟩
        rw [he2] at h; cases h; rfl
      rw [hd]
      refine ⟨le_trans (le_trans (tryNodes_length proxy _) (List.length_take_le 3 _)) (by norm_num),
        fun n hn => tryNodes_dropLast_fail proxy _ n hn, fun _ => tryNodes_ok_last proxy _ r h⟩
    | none =>
      obtain ⟨h1, h2⟩ := tryNodes_none proxy _ h
      have hd : handleArchiveRequest proxy shuffle chainSlug cd =
          ((tryNodes proxy ((shuffle cd.archive_nodes).take 3)).1 ++
            (handleStandardRequest proxy shuffle chainSlug cd).1,
           (handleStandardRequest proxy shuffle chainSlug cd).2) := by
        simp only [handleArchiveRequest, he, if_false]
        rcases he2 : tryNodes proxy ((shuffle cd.archive_nodes).take 3) with ⟨v, res⟩
        rw [he2] at h; cases h; rfl
      rw [hd]
      have hfail1 : ∀ n ∈ (tryNodes proxy ((shuffle cd.archive_nodes).take 3)).1,
          (proxy n).ok = false := by
        intro n hn; exact h2 n (h1 ▸ hn)
      obtain ⟨a1, a2⟩ := append_attempts_spec proxy _ _ _ hfail1 s2 s3
      refine ⟨?_, a1, a2⟩
      rw [List.length_append]
      have hb1 : (tryNodes proxy ((shuffle cd.archive_nodes).take 3)).1.length ≤ 3 :=
        le_trans (tryNodes_length proxy _) (List.length_take_le 3 _)
      omega

theorem handleMevRequest_spec (proxy : String → Resp) (shuffle : List String → List String)
    (cd : ChainData) :
    (handleMevRequest proxy shuffle cd).1.length ≤ 5 ∧
    (∀ n ∈ (handleMevRequest proxy shuffle cd).1.dropLast, (proxy n).ok = false) ∧
    ((handleMevRequest proxy shuffle cd).2.ok = true →
      ∃ n, (handleMevRequest proxy shuffle cd).1.getLast? = some n ∧
        proxy n = (handleMevRequest proxy shuffle cd).2) := by
  have key : ∀ (v1 : List String), v1.length ≤ 2 → (∀ n ∈ v1, (proxy n).ok = false) →
      ∀ (out : List String × Resp),
      (out =
        if cd.nodes.isEmpty then (v1, noNodesMevResp)
        else
          match tryNodes proxy ((shuffle cd.nodes).take 3) with
          | (v2, some r) => (v1 ++ v2, r)
          | (v2, none) => (v1 ++ v2, allFailedMevResp)) →
      out.1.length ≤ 5 ∧
      (∀ n ∈ out.1.dropLast, (proxy n).ok = false) ∧
      (out.2.ok = true → ∃ n, out.1.getLast? = some n ∧ proxy n = out.2) := by
    intro v1 hlen hfail out hout
    by_cases hne : cd.nodes.isEmpty = true
    · rw [if_pos hne] at hout
      subst hout
      refine ⟨by simpa using le_trans hlen (by norm_num), ?_, ?_⟩
      · intro n hn; exact hfail n (List.dropLast_subset _ hn)
      · intro hok; simp [noNodesMevResp, Resp.ok] at hok
    · rw [if_neg hne] at hout
      cases h2 : (tryNodes proxy ((shuffle cd.nodes).take 3)).2 with
      | some r =>
        have hout2 : out = (v1 ++ (tryNodes proxy ((shuffle cd.nodes).take 3)).1, r) := by
          rw [hout]
          rcases he2 : tryNodes proxy ((shuffle cd.nodes).take 3) with ⟨v, res⟩
          rw [he2] at h2; cases h2; rfl
        subst hout2
        obtain ⟨pre, last, p1, p2, p3, p4⟩ := tryNodes_some proxy _ r h2
        obtain ⟨a1, a2⟩ := append_attempts_spec proxy v1 _ r hfail
          (tryNodes_dropLast_fail proxy _) (fun _ => tryNodes_ok_last proxy _ r h2)
        refine ⟨?_, a1, a2⟩
        rw [List.length_append]
        have hb2 : (tryNodes proxy ((shuffle cd.nodes).take 3)).1.length ≤ 3 :=
          le_trans (tryNodes_length proxy _) (List.length_take_le 3 _)
        omega
      | none =>
        have hout2 : out = (v1 ++ (tryNodes proxy ((shuffle cd.nodes).take 3)).1,
            allFailedMevResp) := by
          rw [hout]
          rcases he2 : tryNodes proxy ((shuffle cd.nodes).take 3) with ⟨v, res⟩
          rw [he2] at h2; cases h2; rfl
        subst hout2
        obtain ⟨q1, q2⟩ := tryNodes_none proxy _ h2
        have hfail2 : ∀ n ∈ (tryNodes proxy ((shuffle cd.nodes).take 3)).1,
            (proxy n).ok = false := by intro n hn; exact q2 n (q1 ▸ hn)
        refine ⟨?_, ?_, ?_⟩
        · rw [List.length_append]
          have hb2 : (tryNodes proxy ((shuffle cd.nodes).take 3)).1.length ≤ 3 :=
            le_trans (tryNodes_length proxy _) (List.length_take_le 3 _)
          omega
        · intro n hn
          rcases List.mem_append.mp (List.dropLast_subset _ hn) with hn | hn
          · exact hfail n hn
          · exact hfail2 n hn
        · intro hok; simp [allFailedMevResp, Resp.ok] at hok
  by_cases hme : cd.mev_nodes.isEmpty = true
  · have hd : handleMevRequest proxy shuffle cd =
        if cd.nodes.isEmpty then (([] : List String), noNodesMevResp)
        else
          match tryNodes proxy ((shuffle cd.nodes).take 3) with
          | (v2, some r) => ([] ++ v2, r)
          | (v2, none) => ([] ++ v2, allFailedMevResp) := by
      simp only [handleMevRequest, hme, if_true]
    exact key [] (by norm_num) (by simp) _ hd
  · cases h1 : (tryNodes proxy ((shuffle cd.mev_nodes).take 2)).2 with
    | some r =>
      have hd : handleMevRequest proxy shuffle cd =
          ((tryNodes proxy ((shuffle cd.mev_nodes).take 2)).1, r) := by
        simp only [handleMevRequest, hme, if_false]
        rcases he2 : tryNodes proxy ((shuffle cd.mev_nodes).take 2) with ⟨v, res⟩
        rw [he2] at h1; cases h1; rfl
      rw [hd]
      refine ⟨le_trans (le_trans (tryNodes_length proxy _) (List.length_take_le 2 _)) (by norm_num),
        fun n hn => tryNodes_dropLast_fail proxy _ n hn, fun _ => tryNodes_ok_last proxy _ r h1⟩
    | none =>
      obtain ⟨q1, q2⟩ := tryNodes_none proxy _ h1
      have hd : handleMevRequest proxy shuffle cd =
          if cd.nodes.isEmpty then ((tryNodes proxy ((shuffle cd.mev_nodes).take 2)).1, noNodesMevResp)
          else
            match tryNodes proxy ((shuffle cd.nodes).take 3) with
            | (v2, some r) => ((tryNodes proxy ((shuffle cd.mev_nodes).take 2)).1 ++ v2, r)
            | (v2, none) => ((tryNodes proxy ((shuffle cd.mev_nodes).take 2)).1 ++ v2, allFailedMevResp) := by
        simp only [handleMevRequest, hme, if_false]
        rcases he2 : tryNodes proxy ((shuffle cd.mev_nodes).take 2) with ⟨v, res⟩
        rw [he2] at h1; cases h1; rfl
      refine key _ (le_trans (tryNodes_length proxy _) (List.length_take_le 2 _)) ?_ _ hd
      intro n hn; exact q2 n (q1 ▸ hn)

/-- C2 counterexample: with a non-empty archive pool whose three attempts
all fail and a non-empty standard pool, handleArchiveRequest goes on to a
fourth upstream attempt (the standard fallback), so the archive category
is not limited to the claimed budget of 3 attempts. -/
theorem archive_budget_exceeded_cex :
    (handleArchiveRequest (fun _ => ⟨500, [], "err"⟩) (fun l => l) "eth"
      ⟨0, "eth", 1, ["s1"], ["a1", "a2", "a3"], []⟩).1.length = 4 ∧
    ¬ ((handleArchiveRequest (fun _ => ⟨500, [], "err"⟩) (fun l => l) "eth"
      ⟨0, "eth", 1, ["s1"], ["a1", "a2", "a3"], []⟩).1.length ≤ 3) := by
  constructor <;> decide

/-- C2 (amended): for every proxy outcome, shuffle, slug and chain
configuration, dispatch attempts at most 3 nodes for the standard
category, at most 6 for archive (3 archive attempts, then the standard
fallback's 3), and at most 5 for mev (2, then the standard fallback's 3);
every attempted node except the final one has a non-success proxy
response (so no attempt is issued after a success), and whenever the
returned response has a success status it is exactly the proxy response
of the final attempted node. -/
theorem dispatch_budget_and_first_success (proxy : String → Resp)
    (shuffle : List String → List String) (chainSlug : String) (cd : ChainData) :
    ((handleStandardRequest proxy shuffle chainSlug cd).1.length ≤ 3 ∧
      (handleArchiveRequest proxy shuffle chainSlug cd).1.length ≤ 6 ∧
      (handleMevRequest proxy shuffle cd).1.length ≤ 5) ∧
    ((∀ n ∈ (handleStandardRequest proxy shuffle chainSlug cd).1.dropLast, (proxy n).ok = false) ∧
      (∀ n ∈ (handleArchiveRequest proxy shuffle chainSlug cd).1.dropLast, (proxy n).ok = false) ∧
      (∀ n ∈ (handleMevRequest proxy shuffle cd).1.dropLast, (proxy n).ok = false)) ∧
    (((handleStandardRequest proxy shuffle chainSlug cd).2.ok = true →
        ∃ n, (handleStandardRequest proxy shuffle chainSlug cd).1.getLast? = some n ∧
          proxy n = (handleStandardRequest proxy shuffle chainSlug cd).2) ∧
      ((handleArchiveRequest proxy shuffle chainSlug cd).2.ok = true →
        ∃ n, (handleArchiveRequest proxy shuffle chainSlug cd).1.getLast? = some n ∧
          proxy n = (handleArchiveRequest proxy shuffle chainSlug cd).2) ∧
      ((handleMevRequest proxy shuffle cd).2.ok = true →
        ∃ n, (handleMevRequest proxy shuffle cd).1.getLast? = some n ∧
          proxy n = (handleMevRequest proxy shuffle cd).2)) := by
  obtain ⟨s1, s2, s3⟩ := handleStandardRequest_spec proxy shuffle chainSlug cd
  obtain ⟨a1, a2, a3⟩ := handleArchiveRequest_spec proxy shuffle chainSlug cd
  obtain ⟨m1, m2, m3⟩ := handleMevRequest_spec proxy shuffle cd
  exact ⟨⟨s1, a1, m1⟩, ⟨s2, a2, m2⟩, ⟨s3, a3, m3⟩⟩

/-- Witness for the C2 theorem at a concrete input: a single always
succeeding standard node, for which each handler's first-success
implication is discharged concretely. -/
theorem dispatch_budget_and_first_success_witness :
    ((handleStandardRequest (fun _ => ⟨200, [], "ok"⟩) (fun l => l) "eth"
        ⟨0, "eth", 1, ["s1"], [], []⟩).1.length ≤ 3) ∧
    (∃ n, (handleStandardRequest (fun _ => ⟨200, [], "ok"⟩) (fun l => l) "eth"
        ⟨0, "eth", 1, ["s1"], [], []⟩).1.getLast? = some n ∧
      (fun _ => (⟨200, [], "ok"⟩ : Resp)) n =
        (handleStandardRequest (fun _ => ⟨200, [], "ok"⟩) (fun l => l) "eth"
          ⟨0, "eth", 1, ["s1"], [], []⟩).2) ∧
    (∃ n, (handleArchiveRequest (fun _ => ⟨200, [], "ok"⟩) (fun l => l) "eth"
        ⟨0, "eth", 1, ["s1"], [], []⟩).1.getLast? = some n ∧
      (fun _ => (⟨200, [], "ok"⟩ : Resp)) n =
        (handleArchiveRequest (fun _ => ⟨200, [], "ok"⟩) (fun l => l) "eth"
          ⟨0, "eth", 1, ["s1"], [], []⟩).2) ∧
    (∃ n, (handleMevRequest (fun _ => ⟨200, [], "ok"⟩) (fun l => l)
        ⟨0, "eth", 1, ["s1"], [], []⟩).1.getLast? = some n ∧
      (fun _ => (⟨200, [], "ok"⟩ : Resp)) n =
        (handleMevRequest (fun _ => ⟨200, [], "ok"⟩) (fun l => l)
          ⟨0, "eth", 1, ["s1"], [], []⟩).2) :=
  ⟨(dispatch_budget_and_first_success (fun _ => ⟨200, [], "ok"⟩) (fun l => l) "eth"
      ⟨0, "eth", 1, ["s1"], [], []⟩).1.1,
   (dispatch_budget_and_first_success (fun _ => ⟨200, [], "ok"⟩) (fun l => l) "eth"
      ⟨0, "eth", 1, ["s1"], [], []⟩).2.2.1 (by decide),
   (dispatch_budget_and_first_success (fun _ => ⟨200, [], "ok"⟩) (fun l => l) "eth"
      ⟨0, "eth", 1, ["s1"], [], []⟩).2.2.2.1 (by decide),
   (dispatch_budget_and_first_success (fun _ => ⟨200, [], "ok"⟩) (fun l => l) "eth"
      ⟨0, "eth", 1, ["s1"], [], []⟩).2.2.2.2 (by decide)⟩

/-- C6 counterexample: when every attempt fails, the aggregate failure
returned by handleStandardRequest is the same fixed response whichever
upstream error was observed last — it is not the 418 response the single
node returned, and it is identical for two runs whose last upstream
errors differ, so it cannot carry the last observed upstream error. -/
theorem aggregate_failure_generic_cex :
    (handleStandardRequest (fun _ => ⟨418, [], "teapot"⟩) (fun l => l) "eth"
        ⟨0, "eth", 1, ["s1"], [], []⟩).2 =
      (handleStandardRequest (fun _ => ⟨500, [], "boom"⟩) (fun l => l) "eth"
        ⟨0, "eth", 1, ["s1"], [], []⟩).2 ∧
    (handleStandardRequest (fun _ => ⟨418, [], "teapot"⟩) (fun l => l) "eth"
        ⟨0, "eth", 1, ["s1"], [], []⟩).2 ≠ ⟨418, [], "teapot"⟩ := by
  constructor <;> decide

/-- C6 (amended): when dispatch exhausts its attempt budget with every
attempt failing, it returns a fixed generic aggregate failure — HTTP 502
with a constant JSON body ("All upstream nodes failed" for the standard
and archive paths, "All nodes failed for transaction" for the mev path) —
which is independent of the observed upstream errors and does not carry
the last one. -/
theorem dispatch_exhaustion_generic (proxy : String → Resp)
    (shuffle : List String → List String) (chainSlug : String) (cd : ChainData)
    (hne : cd.nodes.isEmpty = false) (hfail : ∀ n, (proxy n).ok = false) :
    (handleStandardRequest proxy shuffle chainSlug cd).2 = allFailedStdResp ∧
    (handleArchiveRequest proxy shuffle chainSlug cd).2 = allFailedStdResp ∧
    (handleMevRequest proxy shuffle cd).2 = allFailedMevResp := by
  have hnone : ∀ l : List String, (tryNodes proxy l).2 = none :=
    fun l => tryNodes_all_fail_none proxy l (fun n _ => hfail n)
  have hstd : (handleStandardRequest proxy shuffle chainSlug cd).2 = allFailedStdResp := by
    simp only [handleStandardRequest, hne, Bool.false_eq_true, if_false]
    rcases he2 : tryNodes proxy ((shuffle cd.nodes).take 3) with ⟨v, res⟩
    have := hnone ((shuffle cd.nodes).take 3)
    rw [he2] at this; cases this; rfl
  refine ⟨hstd, ?_, ?_⟩
  · by_cases he : cd.archive_nodes.isEmpty = true
    · simpa [handleArchiveRequest, he] using hstd
    · simp only [handleArchiveRequest, he, if_false]
      rcases he2 : tryNodes proxy ((shuffle cd.archive_nodes).take 3) with ⟨v, res⟩
      have := hnone ((shuffle cd.archive_nodes).take 3)
      rw [he2] at this; cases this
      simpa using hstd
  · by_cases hme : cd.mev_nodes.isEmpty = true
    · simp only [handleMevRequest, hme, if_true, hne, Bool.false_eq_true, if_false]
      rcases he2 : tryNodes proxy ((shuffle cd.nodes).take 3) with ⟨v, res⟩
      have := hnone ((shuffle cd.nodes).take 3)
      rw [he2] at this; cases this; rfl
    · simp only [handleMevRequest, hme, if_false]
      rcases he1 : tryNodes proxy ((shuffle cd.mev_nodes).take 2) with ⟨v1, res1⟩
      have := hnone ((shuffle cd.mev_nodes).take 2)
      rw [he1] at this; cases this
      simp only [hne, Bool.false_eq_true, if_false]
      rcases he2 : tryNodes proxy ((shuffle cd.nodes).take 3) with ⟨v2, res2⟩
      have := hnone ((shuffle cd.nodes).take 3)
      rw [he2] at this; cases this; rfl

/-- Witness for the C6 theorem at a concrete input: one standard node
whose proxy outcome is a 500 error. -/
theorem dispatch_exhaustion_generic_witness :
    (handleStandardRequest (fun _ => ⟨500, [], "boom"⟩) (fun l => l) "eth"
        ⟨0, "eth", 1, ["s1"], [], []⟩).2 = allFailedStdResp ∧
    (handleMevRequest (fun _ => ⟨500, [], "boom"⟩) (fun l => l)
        ⟨0, "eth", 1, ["s1"], [], []⟩).2 = allFailedMevResp :=
  ⟨(dispatch_exhaustion_generic (fun _ => ⟨500, [], "boom"⟩) (fun l => l) "eth"
      ⟨0, "eth", 1, ["s1"], [], []⟩ (by decide) (fun _ => rfl)).1,
   (dispatch_exhaustion_generic (fun _ => ⟨500, [], "boom"⟩) (fun l => l) "eth"
      ⟨0, "eth", 1, ["s1"], [], []⟩ (by decide) (fun _ => rfl)).2.2⟩

/-- C8: when the finally selected candidate pool is empty, dispatch
returns the distinct no-nodes-configured 503 response with an empty
attempt list (no upstream attempt at all): the standard handler with an
empty standard pool, the archive handler when both its pools are empty,
and the mev handler when both its pools are empty. -/
theorem dispatch_empty_pool_503 (proxy : String → Resp)
    (shuffle : List String → List String) (chainSlug : String) (cd : ChainData)
    (hstd : cd.nodes = []) :
    handleStandardRequest proxy shuffle chainSlug cd = ([], noNodesStdResp chainSlug) ∧
    (cd.archive_nodes = [] →
      handleArchiveRequest proxy shuffle chainSlug cd = ([], noNodesStdResp chainSlug)) ∧
    (cd.mev_nodes = [] →
      handleMevRequest proxy shuffle cd = ([], noNodesMevResp)) := by
  refine ⟨by simp [handleStandardRequest, hstd], ?_, ?_⟩
  · intro harc
    simp [handleArchiveRequest, harc, handleStandardRequest, hstd]
  · intro hmev
    simp [handleMevRequest, hmev, hstd]

/-- Witness for the C8 theorem at a concrete input: a chain configured
with three empty pools. -/
theorem dispatch_empty_pool_503_witness :
    handleStandardRequest (fun _ => ⟨200, [], "ok"⟩) (fun l => l) "eth"
      ⟨0, "eth", 1, [], [], []⟩ = ([], noNodesStdResp "eth") ∧
    handleMevRequest (fun _ => ⟨200, [], "ok"⟩) (fun l => l)
      ⟨0, "eth", 1, [], [], []⟩ = ([], noNodesMevResp) :=
  ⟨(dispatch_empty_pool_503 (fun _ => ⟨200, [], "ok"⟩) (fun l => l) "eth"
      ⟨0, "eth", 1, [], [], []⟩ rfl).1,
   (dispatch_empty_pool_503 (fun _ => ⟨200, [], "ok"⟩) (fun l => l) "eth"
      ⟨0, "eth", 1, [], [], []⟩ rfl).2.2 rfl⟩

/-! Claim C3: the archive classification iff. -/

theorem requiresArchiveNode_iff (method : String) (hm : method ∈ blockMethods)
    (params : List RpcParam) :
    requiresArchiveNode method params = true ↔ amendedArchiveCond params := by
  unfold requiresArchiveNode amendedArchiveCond
  rw [if_neg (not_not_intro hm)]
  cases hg : params.getLast? with
  | none => simp
  | some p =>
    cases p with
    | nonstr => simp
    | str s =>
      by_cases hs : s = "earliest"
      · simp [hs]
      · by_cases hx : strStartsWith s "0x" = true
        · cases hp : parseIntHex s with
          | none => simp [hs, hx, hp]
          | some n => simp [hs, hx, hp]
        · simp [hs, hx]

theorem determineRoutingType_archive_iff (method : String) (params : List RpcParam)
    (h1 : (method == "eth_sendRawTransaction") = false)
    (h2 : strStartsWith method "trace_" = false)
    (h3 : strStartsWith method "debug_" = false)
    (h4 : (method == "eth_getLogs") = false) :
    (determineRoutingType method params = RoutingType.archive ↔
      requiresArchiveNode method params = true) := by
  simp only [determineRoutingType, h1, h2, h3, h4, Bool.false_eq_true, if_false,
    Bool.or_self, Bool.false_or]
  by_cases hr : requiresArchiveNode method params = true
  · simp [hr]
  · simp [hr, eq_false_of_ne_true hr]

/-- C3 counterexample: the claimed iff fails on the code in both
directions. Last parameter "0x0" is a hex-encoded block number whose
value 0 is below the threshold, so the claim classifies it archive, but
the code (which also requires blockNum greater than 0) classifies it
standard; last parameter "0x5zz" is not a hex-encoded block number, so
the claim classifies it standard, but the code (JavaScript parseInt reads
the longest hex prefix, giving 5) classifies it archive. -/
theorem classify_archive_iff_cex :
    ¬ (determineRoutingType "eth_getBalance" [RpcParam.str "0x0"] = RoutingType.archive ↔
        claimArchiveCond [RpcParam.str "0x0"] = true) ∧
    ¬ (determineRoutingType "eth_call" [RpcParam.nonstr, RpcParam.str "0x5zz"] = RoutingType.archive ↔
        claimArchiveCond [RpcParam.nonstr, RpcParam.str "0x5zz"] = true) := by
  constructor <;> decide

/-- C3 (amended): for every method in the block-parameterized set and
every params list, classification yields archive iff the last parameter
is the string "earliest" or a 0x-prefixed string whose JavaScript
parseInt(_, 16) value is strictly greater than 0 and below the recency
threshold 15000000. -/
theorem classify_archive_iff (method : String) (hm : method ∈ blockMethods)
    (params : List RpcParam) :
    determineRoutingType method params = RoutingType.archive ↔ amendedArchiveCond params := by
  rw [← requiresArchiveNode_iff method hm params]
  fin_cases hm <;>
    exact determineRoutingType_archive_iff _ params (by decide) (by decide) (by decide) (by decide)

/-- Witness for the C3 theorem at a concrete input. -/
theorem classify_archive_iff_witness :
    determineRoutingType "eth_getBalance" [RpcParam.str "earliest"] = RoutingType.archive ↔
      amendedArchiveCond [RpcParam.str "earliest"] :=
  classify_archive_iff "eth_getBalance" (by decide) [RpcParam.str "earliest"]

/-- C7: getCacheTtl equals the static per-method table — the five
immutable methods map to 900 seconds for every params list, the five
volatile methods map to the single configured short TTL (1 second),
eth_getBlockByNumber maps to the short TTL iff its block argument is one
of the five changing tags (and to 900 otherwise, its only other value),
and every method outside the table (including eth_sendRawTransaction)
maps to 0, never cached. -/
theorem getCacheTtl_table :
    (∀ m ∈ IMMUTABLE_METHODS, ∀ ps, getCacheTtl m ps = 900) ∧
    (∀ m ∈ VOLATILE_METHODS, ∀ ps, getCacheTtl m ps = 1) ∧
    (∀ ps, getCacheTtl "eth_getBlockByNumber" ps = 1 ↔
      ∃ t, ps.head? = some (RpcParam.str t) ∧ t ∈ BLOCK_TAGS) ∧
    (∀ ps, getCacheTtl "eth_getBlockByNumber" ps = 1 ∨
      getCacheTtl "eth_getBlockByNumber" ps = 900) ∧
    (∀ m, m ∉ IMMUTABLE_METHODS → m ∉ VOLATILE_METHODS → m ≠ "eth_getBlockByNumber" →
      ∀ ps, getCacheTtl m ps = 0) := by
  refine ⟨?_, ?_, ?_, ?_, ?_⟩
  · intro m hm ps
    fin_cases hm <;> rfl
  · intro m hm ps
    fin_cases hm <;> rfl
  · intro ps
    show (getCacheTtl "eth_getBlockByNumber" ps = 1) ↔ _
    unfold getCacheTtl
    rw [if_neg (by decide), if_neg (by decide), if_pos (by decide)]
    cases hh : ps.head? with
    | none => simp
    | some p =>
      cases p with
      | nonstr => simp
      | str t =>
        by_cases ht : t ∈ BLOCK_TAGS
        · simp [ht]
        · simp [ht]
  · intro ps
    unfold getCacheTtl
    rw [if_neg (by decide), if_neg (by decide), if_pos (by decide)]
    cases hh : ps.head? with
    | none => simp
    | some p =>
      cases p with
      | nonstr => simp
      | str t =>
        by_cases ht : t ∈ BLOCK_TAGS
        · simp [ht]
        · simp [ht]
  · intro m h1 h2 h3 ps
    unfold getCacheTtl
    rw [if_neg h2, if_neg h1, if_neg (by simpa using h3)]

/-- Witness for the C7 theorem at concrete inputs, one per table row. -/
theorem getCacheTtl_table_witness :
    getCacheTtl "eth_chainId" [] = 900 ∧
    getCacheTtl "eth_call" [] = 1 ∧
    (getCacheTtl "eth_getBlockByNumber" [RpcParam.str "latest"] = 1 ↔
      ∃ t, [RpcParam.str "latest"].head? = some (RpcParam.str t) ∧ t ∈ BLOCK_TAGS) ∧
    getCacheTtl "eth_sendRawTransaction" [] = 0 :=
  ⟨getCacheTtl_table.1 "eth_chainId" (by decide) [],
   getCacheTtl_table.2.1 "eth_call" (by decide) [],
   getCacheTtl_table.2.2.1 [RpcParam.str "latest"],
   getCacheTtl_table.2.2.2.2 "eth_sendRawTransaction" (by decide) (by decide) (by decide) []⟩

/-! Claim C5: the X-NullRPC-Cache response header. -/

theorem headerGet_headerSet (hs : List (String × String)) (k v : String) :
    headerGet (headerSet hs k v) k = some v := by
  unfold headerGet headerSet
  rw [List.find?_append]
  have h1 : List.find? (fun p => p.1 == k) (hs.filter (fun p => decide (¬(p.1 = k)))) = none := by
    rw [List.find?_eq_none]
    intro x hx
    have hx2 := (List.mem_filter.mp hx).2
    simp at hx2 ⊢
    exact hx2
  rw [h1]
  simp

/-- C5 counterexample: a cacheable single call (eth_chainId) that misses
the cache: the cache decision outcome is MISS, yet the client receives
the stub response verbatim, with no X-NullRPC-Cache header at all. -/
theorem cache_header_missing_on_miss_cex :
    handleRequest "eth" true true (RpcBody.single "eth_chainId" []) none
        ⟨200, [("Content-Type", "application/json")], "res"⟩ =
      (CacheStatus.MISS, ⟨200, [("Content-Type", "application/json")], "res"⟩) ∧
    headerGet (handleRequest "eth" true true (RpcBody.single "eth_chainId" []) none
        ⟨200, [("Content-Type", "application/json")], "res"⟩).2.headers "X-NullRPC-Cache" = none := by
  constructor <;> decide

/-- C5 (amended): the X-NullRPC-Cache header is set only on a cache hit,
always with value HIT; on every other outcome (MISS, BYPASS, NONE) the
stub response is returned unchanged, so the response carries no such
header unless the upstream response already did. -/
theorem cache_header_only_on_hit (chain : String) (isPost hasCtx : Bool) (body : RpcBody)
    (cacheLookup : Option Resp) (stubResp : Resp)
    (hstub : headerGet stubResp.headers "X-NullRPC-Cache" = none) :
    headerGet (handleRequest chain isPost hasCtx body cacheLookup stubResp).2.headers
        "X-NullRPC-Cache" =
      (if (handleRequest chain isPost hasCtx body cacheLookup stubResp).1 = CacheStatus.HIT
        then some "HIT" else none) := by
  cases isPost with
  | false => simpa [handleRequest] using hstub
  | true =>
    cases body with
    | batch => simpa [handleRequest] using hstub
    | malformed => simpa [handleRequest] using hstub
    | single m ps =>
      by_cases hc : 0 < getCacheTtl m ps ∧ hasCtx = true
      · cases cacheLookup with
        | some cr => simp [handleRequest, hc, headerGet_headerSet]
        | none => simpa [handleRequest, hc] using hstub
      · simpa [handleRequest, hc] using hstub

/-- Witness for the C5 theorem at a concrete input (a MISS). -/
theorem cache_header_only_on_hit_witness :
    headerGet (handleRequest "eth" true true (RpcBody.single "eth_blockNumber" []) none
        ⟨200, [], "ok"⟩).2.headers "X-NullRPC-Cache" =
      (if (handleRequest "eth" true true (RpcBody.single "eth_blockNumber" []) none
          ⟨200, [], "ok"⟩).1 = CacheStatus.HIT then some "HIT" else none) :=
  cache_header_only_on_hit "eth" true true (RpcBody.single "eth_blockNumber" []) none
    ⟨200, [], "ok"⟩ rfl

/-- C9: when the configuration fetch fails, ensureChainData leaves the
ChainDO state exactly as it was — the previously cached ChainData (or
none, when never loaded) and the lastSync stamp are retained — and no
error reaches the caller (the source catches the query error, so the
embedding is a total function); request handling then proceeds on the
retained value. -/
theorem ensureChainData_failure_keeps_state (now : Nat) (st : ChainDOState) :
    ensureChainData now FetchResult.failure st = st := by
  unfold ensureChainData
  by_cases hfresh : st.chainData.isSome = true ∧ now - st.lastSync < SYNC_INTERVAL
  · rw [if_pos hfresh]
  · rw [if_neg hfresh]
    by_cases hsome : st.chainData.isSome = true
    · simp [hsome]
    · have hnone : st.chainData = none := Option.not_isSome_iff_eq_none.mp hsome
      simp only [hsome, Bool.false_eq_true, if_false]
      cases st with
      | mk cdata ls =>
        simp only at hnone
        subst hnone
        rfl

/-! Claim C4: the hobbyist burst scenario. -/

theorem runBurst_counts (n : Nat) :
    ∀ (m : Nat) (st : RateLimitState), st.tokens = (m : ℚ) → st.tokens ≤ st.capacity →
      st.monthlyUsed + n ≤ st.monthlyLimit →
      runBurst n st = (min n m, n - min n m) := by
  induction n with
  | zero =>
    intro m st _ _ _
    simp [runBurst]
  | succ n ih =>
    intro m st htok hcap hmon
    have hmon1 : ¬ (st.monthlyLimit ≤ st.monthlyUsed) := by omega
    have ht : min st.capacity (st.tokens + 0 * st.refillRatePerSec) = st.tokens := by
      rw [zero_mul, add_zero]
      exact min_eq_right hcap
    cases m with
    | zero =>
      have hlt : st.tokens < 1 := by rw [htok]; norm_num
      have hstep : rateLimitCheck 0 st =
          (⟨false, some RateLimitReason.rate_limit, Rat.floor st.tokens⟩, st) := by
        simp only [rateLimitCheck]
        rw [ht, if_neg hmon1, if_pos hlt]
      have hrest := ih 0 st htok hcap (by omega)
      simp only [runBurst, hstep, hrest]
      simp

    | succ k =>
      have hge : ¬ (st.tokens < 1) := by
        rw [htok]
        push_cast
        have hk : (0 : ℚ) ≤ (k : ℚ) := by positivity
        linarith
      have hstep : rateLimitCheck 0 st =
          (⟨true, none, Rat.floor (st.tokens - 1)⟩, ⟨st.tokens - 1, st.capacity, st.refillRatePerSec, st.monthlyUsed + 1, st.monthlyLimit⟩) := by
        simp only [rateLimitCheck]
        rw [ht, if_neg hmon1, if_neg hge]
      have htok2 : (⟨st.tokens - 1, st.capacity, st.refillRatePerSec, st.monthlyUsed + 1, st.monthlyLimit⟩ : RateLimitState).tokens = (k : ℚ) := by
        simp only
        rw [htok]
        push_cast
        ring
      have hcap2 : (⟨st.tokens - 1, st.capacity, st.refillRatePerSec, st.monthlyUsed + 1, st.monthlyLimit⟩ : RateLimitState).tokens ≤ (⟨st.tokens - 1, st.capacity, st.refillRatePerSec, st.monthlyUsed + 1, st.monthlyLimit⟩ : RateLimitState).capacity := by
        simp only
        linarith
      have hmon2 : (⟨st.tokens - 1, st.capacity, st.refillRatePerSec, st.monthlyUsed + 1, st.monthlyLimit⟩ : RateLimitState).monthlyUsed + n ≤ (⟨st.tokens - 1, st.capacity, st.refillRatePerSec, st.monthlyUsed + 1, st.monthlyLimit⟩ : RateLimitState).monthlyLimit := by
        simp only
        omega
      have hrest := ih k _ htok2 hcap2 hmon2
      simp only [runBurst, hstep, hrest]
      refine Prod.ext ?_ ?_ <;> simp <;> omega

/-- C4: on the hobbyist plan (10 requests per second, 100000 per month,
bucket capacity 10 × 1.5 = 15), a burst of 25 requests within one second
— arriving at a single instant — has exactly 15 requests allowed and the
remaining 10 rejected with reason rate_limit. -/
theorem hobbyist_burst_15_allowed_10_limited :
    (PLANS PlanType.hobbyist).requestsPerSecond = ((10 : Nat) : WithTop Nat) ∧
    (PLANS PlanType.hobbyist).requestsPerMonth = ((100000 : Nat) : WithTop Nat) ∧
    (initialRateLimitState 10 100000).capacity = 15 ∧
    runBurst 25 (initialRateLimitState 10 100000) = (15, 10) := by
  have hcapval : (initialRateLimitState 10 100000).capacity = 15 := by
    norm_num [initialRateLimitState, BURST_MULTIPLIER]
  refine ⟨rfl, rfl, hcapval, ?_⟩
  have htok : (initialRateLimitState 10 100000).tokens = ((15 : Nat) : ℚ) := by
    norm_num [initialRateLimitState, BURST_MULTIPLIER]
  have hcap : (initialRateLimitState 10 100000).tokens ≤
      (initialRateLimitState 10 100000).capacity := le_refl _
  have hmon : (initialRateLimitState 10 100000).monthlyUsed + 25 ≤
      (initialRateLimitState 10 100000).monthlyLimit := by
    norm_num [initialRateLimitState]
  rw [runBurst_counts 25 15 _ htok hcap hmon]
  decide

/-! Claim C10: chain-slug injectivity of the cache key. -/

theorem byteToHex_length (b : Fin 256) : (byteToHex b).length = 2 := rfl

theorem hashHexOfDigest_length (d : List (Fin 256)) :
    (hashHexOfDigest d).length = 2 * d.length := by
  induction d with
  | nil => rfl
  | cons b rest ih =>
    unfold hashHexOfDigest at ih ⊢
    simp only [List.map_cons, joinAll, String.length_append, ih, byteToHex_length,
      List.length_cons]
    omega

/-- C10: calculateCacheKey is injective in the chain slug: for distinct
slugs (containing no slash) and any two body strings, the keys differ —
the slug sits verbatim between the fixed prefix and the fixed-length
64-character digest rendering, so equal keys would force equal slugs.
`sha256` is quantified over all digest functions whose output is 32
bytes, which crypto.subtle.digest('SHA-256', _) satisfies. -/
theorem calculateCacheKey_chain_injective (sha256 : String → List (Fin 256))
    (hsha : ∀ s, (sha256 s).length = 32)
    (c1 c2 b1 b2 : String) (hs1 : c1.data.contains '/' = false)
    (hs2 : c2.data.contains '/' = false) (hne : c1 ≠ c2) :
    calculateCacheKey sha256 c1 b1 ≠ calculateCacheKey sha256 c2 b2 := by
  intro heq
  apply hne
  unfold calculateCacheKey at heq
  have hdata := congrArg String.data heq
  simp only [String.data_append, List.append_assoc] at hdata
  have h3 := (List.append_inj hdata rfl).2
  have hl1 : (hashHexOfDigest (sha256 b1)).data.length = 64 := by
    have h := hashHexOfDigest_length (sha256 b1)
    rw [hsha b1] at h
    exact h
  have hl2 : (hashHexOfDigest (sha256 b2)).data.length = 64 := by
    have h := hashHexOfDigest_length (sha256 b2)
    rw [hsha b2] at h
    exact h
  have hlen : c1.data.length = c2.data.length := by
    have hl := congrArg List.length h3
    simp only [List.length_append, hl1, hl2] at hl
    omega
  have hfin := (List.append_inj h3 hlen).1
  cases c1 with
  | mk d1 =>
    cases c2 with
    | mk d2 =>
      simp only at hfin
      rw [hfin]

/-- Witness for the C10 theorem at a concrete input: the all-zero digest
function and the slugs eth and bsc. -/
theorem calculateCacheKey_chain_injective_witness :
    calculateCacheKey (fun _ => List.replicate 32 0) "eth" "x" ≠
      calculateCacheKey (fun _ => List.replicate 32 0) "bsc" "y" :=
  calculateCacheKey_chain_injective (fun _ => List.replicate 32 0)
    (fun _ => List.length_replicate 32 0) "eth" "bsc" "x" "y"
    (by decide) (by decide) (by decide)

/-- C1: the worker router never routes any request to an authenticated
handler — no path and method reach an authRpc outcome — and in
particular a POST to /{chain}/{token} with a non-empty token segment is
answered with the literal 404 Not Found outcome (with or without the
assets binding), contradicting the documented authenticated route. -/
theorem route_token_not_found :
    (∀ (hasAssets : Bool) (m : HttpMethod) (path : String) (c t : String),
      routeFetch hasAssets m path ≠ RouteOutcome.authRpc c t) ∧
    routeFetch false HttpMethod.POST "/eth/my-token" = RouteOutcome.notFound ∧
    routeFetch true HttpMethod.POST "/eth/123-abc" = RouteOutcome.notFound := by
  refine ⟨?_, by decide, by decide⟩
  intro a m p c t h
  simp only [routeFetch] at h
  repeat' split at h
  all_goals simp_all

end NullRpc
